import Mathlib

/-!
# Verification of `MINC_model_testing` plotting and demo utilities

Shallow embedding of `material_segmentation/minc_plotting.py` and
`ncs_demos/runGUI_NCS.py`.

Conventions of the embedding:
* numpy 2-D integer arrays are `List (List Int)` (numpy arrays are
  rectangular; row-wise `map` coincides with the source's explicit
  `shape[0] × shape[1]` index loops on such arrays);
* numpy 3-D probability tensors are `List (List (List ℚ))`
  (class plane, row, column), float arithmetic modelled exactly over `ℚ`;
* Python `dict.get`, which returns `None` on a missing key, is `Option`;
  a Python value that is a genuine `int` appears as `some`;
* a Python expression that raises (e.g. `str + None` → `TypeError`)
  is modelled by an `Option`/error result of the enclosing function.
-/

namespace MincPlotting

/-- Global dictionary `CLASS_LIST` of class number : name pairs
(minc_plotting.py lines 13-35), as an association list in the
insertion order of the Python literal. -/
def CLASS_LIST : List (Int × String) :=
  [(0, "brick"), (1, "carpet"), (2, "ceramic"), (3, "fabric"),
   (4, "foliage"), (5, "food"), (6, "glass"), (7, "hair"),
   (8, "leather"), (9, "metal"), (10, "mirror"), (11, "other"),
   (12, "painted"), (13, "paper"), (14, "plastic"), (15, "polishedstone"),
   (16, "skin"), (17, "sky"), (18, "stone"), (19, "tile"),
   (20, "wallpaper"), (21, "water"), (22, "wood")]

/-- Result type of `get_class_names`: the Python function returns a single
value (`class_names[0]`, a `str` or `None`) when exactly one number was
passed, and otherwise the list of looked-up names. -/
inductive ClassNames where
  | one : Option String → ClassNames
  | many : List (Option String) → ClassNames
  deriving DecidableEq

/-- `get_class_names` (minc_plotting.py lines 38-51): looks every number up
in `CLASS_LIST` with `dict.get` (`None` on a miss), then returns the single
element when the list has length one and the whole list otherwise. -/
def get_class_names (class_numbers : List Int) : ClassNames :=
  let class_names := class_numbers.map (fun number => CLASS_LIST.lookup number)
  match class_names with
  | [n] => ClassNames.one n
  | l => ClassNames.many l

/-- The `for (number, name) in zip(...): tick_labels.append(str(number) +
": " + name)` loop of `get_tick_labels` (minc_plotting.py lines 60-61):
the concatenation `str + None` raises `TypeError` (`none` here) as soon as
a `name` is the `None` placeholder. -/
def build_tick_labels : List (Int × Option String) → Option (List String)
  | [] => some []
  | (number, name) :: rest =>
    match name with
    | none => none
    | some nm =>
      (build_tick_labels rest).map (fun ls => (toString number ++ ": " ++ nm) :: ls)

/-- `get_tick_labels` (minc_plotting.py lines 54-63):
`zip(class_numbers, class_names)` followed by
`str(number) + ": " + name` for each pair.

When `get_class_names` returned a single string, Python's `zip` iterates
over the *characters* of that string; when it returned the single value
`None`, `zip` raises `TypeError` (`none` here). -/
def get_tick_labels (class_numbers : List Int) : Option (List String) :=
  match get_class_names class_numbers with
  | ClassNames.one none => none
  | ClassNames.one (some s) =>
      some ((class_numbers.zip s.toList).map
        (fun p => toString p.1 ++ ": " ++ p.2.toString))
  | ClassNames.many class_names =>
      build_tick_labels (class_numbers.zip class_names)

/-- `np.unique(class_map).tolist()` (minc_plotting.py line 76): the sorted
list of distinct values of the 2-D array. -/
def np_unique (class_map : List (List Int)) : List Int :=
  class_map.flatten.dedup.insertionSort (· ≤ ·)

/-- `value_dict = {a: b for (a, b) in zip(unique_values, modified_values)}`
(minc_plotting.py lines 77-78) with `modified_values = range(0, len
(unique_values))`, as an association list. -/
def value_dict (unique_values : List Int) : List (Int × Int) :=
  unique_values.zip ((List.range unique_values.length).map Int.ofNat)

/-- `modify_class_map` (minc_plotting.py lines 66-83): replaces every entry
by `value_dict.get(entry)`.  The source indexes `class_map[i][j]` over
`range(shape[0]) × range(shape[1])`, i.e. it maps the lookup over every
entry of the (rectangular) array. -/
def modify_class_map (class_map : List (List Int)) : List (List (Option Int)) :=
  let unique_values := np_unique class_map
  class_map.map (fun row => row.map (fun x => (value_dict unique_values).lookup x))

/-- The rank assigned by `modify_class_map` to an input code `x`:
`value_dict.get(x)`. -/
def class_rank (class_map : List (List Int)) (x : Int) : Option Int :=
  (value_dict (np_unique class_map)).lookup x

/-! ## Colorbar tick locations (`plot_class_map`, minc_plotting.py lines 141-144) -/

/-- `np.arange(start, stop, step)` for a positive `step`, over exact
rationals: the values `start + i * step` for
`i < ⌈(stop - start) / step⌉`. -/
def np_arange (start stop step : ℚ) : List ℚ :=
  (List.range (⌈(stop - start) / step⌉).toNat).map
    (fun i : ℕ => start + (i : ℚ) * step)

/-- The colorbar tick locations computed by `plot_class_map`
(minc_plotting.py lines 141-144, identical in `plot_output` and
`get_class_plot`):
`step_length = (len(unique_classes) - 1) / len(unique_classes)` and
`loc = np.arange(step_length / 2, len(unique_classes), step_length)` when
more than one class is present, else `[0.0]`. -/
def plot_class_map_tick_locs (class_map : List (List Int)) : List ℚ :=
  let unique_classes := np_unique class_map
  let step_length : ℚ :=
    ((unique_classes.length : ℚ) - 1) / (unique_classes.length : ℚ)
  if unique_classes.length > 1 then
    np_arange (step_length / 2) (unique_classes.length : ℚ) step_length
  else [0]

/-- The tick-position sequence the spec claims: `(i + 0.5) * (k-1)/k` for
`i` in `0..k-1`, where `k` is the number of distinct classes.  Stated from
the spec's words, for comparison with the source's
`plot_class_map_tick_locs`. -/
def spec_claimed_tick_locs (k : Nat) : List ℚ :=
  (List.range k).map (fun i : ℕ => ((i : ℚ) + 1/2) * ((k : ℚ) - 1) / (k : ℚ))

/-! ## Class-map derivation from the network output
(`plot_class_map` lines 127-130, `plot_output` lines 255-266) -/

/-- 3-D probability tensor (class plane, row, column). -/
abbrev Prob3 := List (List (List ℚ))

/-- The two accepted input forms of the plotting entry points: the raw
dictionary `{'prob': [...batch...]}` from the inference engine, or a
pre-averaged 3-D array. -/
inductive NetworkOutput where
  | dict : List Prob3 → NetworkOutput
  | arr : Prob3 → NetworkOutput

/-- Inner loop of `np.argmax` on a 1-D sequence: keep the first index
attaining the running maximum (a later value replaces the best only when
strictly greater). -/
def np_argmax_go : List ℚ → Nat → ℚ → Nat → Nat
  | [], bestIdx, _, _ => bestIdx
  | v :: rest, bestIdx, bestVal, idx =>
    if bestVal < v then np_argmax_go rest idx v (idx + 1)
    else np_argmax_go rest bestIdx bestVal (idx + 1)

/-- `np.argmax` of a 1-D sequence: index of the first occurrence of the
maximum (`0` on the empty list, which numpy rejects; callers guard it). -/
def np_argmax : List ℚ → Nat
  | [] => 0
  | v :: rest => np_argmax_go rest 0 v 1

/-- `p.argmax(axis=0)` of a 3-D tensor of shape (classes, h, w): for each
pixel `(i, j)`, the first class index of maximal probability.  The output
shape (h, w) is that of the class planes (rectangular ndarray). -/
def argmax_axis0 (p : Prob3) : List (List Nat) :=
  match p with
  | [] => []
  | p0 :: _ =>
    (List.range p0.length).map (fun i =>
      (List.range (((p0.get? i).getD []).length)).map (fun j =>
        np_argmax (p.map (fun plane =>
          ((((plane.get? i).getD []).get? j).getD 0)))))

/-- The class-map derivation shared by `plot_class_map`
(minc_plotting.py lines 127-130), `plot_output` (lines 255-266),
`plot_abs_map` and `get_class_plot`:
`network_output['prob'][0].argmax(axis=0)` when the input is a dict
(`none` models the `IndexError` of `[0]` on an empty batch list), and
`network_output.argmax(axis=0)` otherwise. -/
def derive_class_map (network_output : NetworkOutput) : Option (List (List Nat)) :=
  match network_output with
  | NetworkOutput.dict prob => prob.head?.map argmax_axis0
  | NetworkOutput.arr p => some (argmax_axis0 p)

/-! ## `plot_output` (minc_plotting.py lines 230-328) as an effect trace

The function's filesystem activity is modelled as the ordered list of
events it performs before returning or raising; a raised Python exception
is the `Option PyError` component. -/

/-- Python exceptions that `plot_output` can raise. -/
inductive PyError where
  | indexError
  | valueError
  | attributeError
  deriving DecidableEq

/-- Filesystem / plotting side effects of `plot_output`, in program order. -/
inductive FSEvent where
  | makedirs : String → FSEvent
  | openLog : String → FSEvent
  | logWrite : String → FSEvent
  | savefig : String → FSEvent
  | closeLog : FSEvent
  deriving DecidableEq

/-- The image argument of `plot_output` when not `None`: only its
`shape[0]` (height) and `shape[1]` (width) are consulted. -/
structure PyImage where
  height : Nat
  width : Nat
  deriving DecidableEq

/-- Python's `str((a, b))` for the aspect tuple. -/
def py_str_pair (p : Nat × Nat) : String :=
  "(" ++ toString p.1 ++ ", " ++ toString p.2 ++ ")"

/-- The per-class plot loop of `plot_output` (lines 316-326):
`for class_num in CLASS_LIST.keys(): prob_map = network_output[class_num];
... savefig(path + "/" + str(class_num) + ".jpg")`.  Indexing past the end
of the plane list raises `IndexError`. -/
def per_class_loop (path : String) (planes : List (List (List ℚ))) :
    List Nat → List FSEvent × Option PyError
  | [] => ([], none)
  | c :: rest =>
    if c < planes.length then
      let r := per_class_loop path planes rest
      (FSEvent.savefig (path ++ "/" ++ toString c ++ ".jpg") :: r.1, r.2)
    else ([], some PyError.indexError)

/-- `plot_output` (minc_plotting.py lines 230-328) modelled as its ordered
effect trace plus the exception it raises, if any.

Program order of the source:
1. resolve `path` (timestamped under `cwd` when `None`, else
   `path + "/plots"`) and `os.makedirs` it (lines 244-249);
2. open the log and write the `path:` line (lines 251-253);
3. branch on the input form (lines 255-268): the dict branch evaluates
   `network_output['prob'][0]` (`IndexError` on an empty batch list), its
   `argmax`/`max` (`ValueError` on an empty class axis), the per-class
   list comprehension over `CLASS_LIST.keys()` (`IndexError` when fewer
   than 23 planes), then writes its log line; the array branch evaluates
   `argmax`/`max` and writes its log line;
4. write the `plot aspect:` line with the default `(30, 10)` applied
   (lines 270-273);
5. write the `image aspect:` line from `image.shape` — `AttributeError`
   when `image` is `None` (line 274);
6. save the class-map figure, the confidence-map figure, the 23 per-class
   figures, and close the log (lines 276-328). -/
def plot_output (network_output : NetworkOutput) (image : Option PyImage)
    (path : Option String) (aspect : Option (Nat × Nat)) (cwd timestamp : String) :
    List FSEvent × Option PyError :=
  let path' := match path with
    | none => cwd ++ "/plots/" ++ timestamp
    | some p => p ++ "/plots"
  let ev₀ := [FSEvent.makedirs path',
              FSEvent.openLog (path' ++ "/test_log.txt"),
              FSEvent.logWrite ("path: " ++ path' ++ "\n")]
  let rest := fun (formLine : String) (planes : List (List (List ℚ))) =>
    let aspect' := aspect.getD (30, 10)
    let ev₁ := ev₀ ++ [FSEvent.logWrite formLine,
                       FSEvent.logWrite ("plot aspect: " ++ py_str_pair aspect' ++ "\n")]
    match image with
    | none => (ev₁, some PyError.attributeError)
    | some img =>
      let ev₂ := ev₁ ++ [FSEvent.logWrite ("image aspect: " ++ toString img.width
                           ++ ", " ++ toString img.height ++ "\n"),
                         FSEvent.savefig (path' ++ "/class_map.jpg"),
                         FSEvent.savefig (path' ++ "/confidence_map.jpg")]
      let r := per_class_loop path' planes (List.range 23)
      match r.2 with
      | some e => (ev₂ ++ r.1, some e)
      | none => (ev₂ ++ r.1 ++ [FSEvent.closeLog], none)
  match network_output with
  | NetworkOutput.dict prob =>
    match prob with
    | [] => (ev₀, some PyError.indexError)
    | P :: _ =>
      if P.length = 0 then (ev₀, some PyError.valueError)
      else if P.length < 23 then (ev₀, some PyError.indexError)
      else rest "network_output is dict\n" (P.take 23)
  | NetworkOutput.arr p =>
    if p.length = 0 then (ev₀, some PyError.valueError)
    else rest "'network_output' is average prob maps\n" p

/-- Well-formed classification results per the data model: a dict holds a
single batch entry whose class axis is the 23-class catalog; a
pre-averaged array has a non-empty class axis. -/
def WellFormedOutput : NetworkOutput → Prop
  | NetworkOutput.dict prob => ∃ P, prob = [P] ∧ P.length = 23
  | NetworkOutput.arr p => p ≠ []

end MincPlotting

namespace NcsDemo

/-! ## `runGUI_NCS.py` `__main__` block (lines 22-39) -/

/-- The value bound to `input_stream` and passed to `cv2.VideoCapture`:
the camera index `0` for `"cam"`, otherwise the file path. -/
inductive InputStream where
  | camera : Nat → InputStream
  | file : String → InputStream
  deriving DecidableEq

/-- Lines 27-31: `input_stream = 0` when `args.input == 'cam'`; otherwise
`input_stream = args.input` followed by `assert os.path.isfile(args.input)`.
`none` is the assertion failure; the filesystem is the external predicate
`isfile`. -/
def resolve_input_stream (isfile : String → Bool) (input : String) :
    Option InputStream :=
  if input = "cam" then some (InputStream.camera 0)
  else if isfile input then some (InputStream.file input) else none

/-- Observable steps of the `__main__` block after argument parsing. -/
inductive DemoEvent where
  | assertFailure : DemoEvent
  | openCapture : InputStream → DemoEvent
  | startApp : DemoEvent
  deriving DecidableEq

/-- The `__main__` block (lines 27-39) as its event sequence: the
assertion (line 31) precedes `cv2.VideoCapture(input_stream)` (line 35),
so a failed assertion aborts before the capture is opened; otherwise the
capture is opened on the resolved stream and the app starts. -/
def run_demo_main (isfile : String → Bool) (input : String) : List DemoEvent :=
  match resolve_input_stream isfile input with
  | none => [DemoEvent.assertFailure]
  | some s => [DemoEvent.openCapture s, DemoEvent.startApp]

end NcsDemo


/-! # Supporting lemmas -/

namespace MincPlotting

theorem mem_np_unique {m : List (List Int)} {x : Int} :
    x ∈ np_unique m ↔ x ∈ m.flatten := by
  simp [np_unique]

theorem nodup_np_unique (m : List (List Int)) : (np_unique m).Nodup :=
  (List.perm_insertionSort _ _).nodup_iff.mpr m.flatten.nodup_dedup

theorem sorted_np_unique (m : List (List Int)) :
    (np_unique m).Sorted (· ≤ ·) :=
  List.sorted_insertionSort _ _

/-- On a `≤`-sorted duplicate-free list, positions order strictly. -/
theorem np_unique_get_lt (m : List (List Int))
    (i j : Fin (np_unique m).length) (hij : i < j) :
    (np_unique m).get i < (np_unique m).get j := by
  have hle := (sorted_np_unique m).rel_get_of_lt hij
  have hne : (np_unique m).get i ≠ (np_unique m).get j := fun h =>
    ne_of_lt hij ((List.Nodup.get_inj_iff (nodup_np_unique m)).mp h)
  exact lt_of_le_of_ne hle hne

/-- `np.arange` unfolded once the element count is known. -/
theorem np_arange_eq (start stop step : ℚ) (n : ℕ)
    (h : ⌈(stop - start) / step⌉ = (n : ℤ)) :
    np_arange start stop step =
      (List.range n).map (fun i : ℕ => start + (i : ℚ) * step) := by
  simp [np_arange, h]

/-- One unfolding step of `List.lookup` on a mismatching head key. -/
theorem lookup_cons_of_ne {β : Type} {x k : Int} {b : β} {es : List (Int × β)}
    (h : (x == k) = false) :
    List.lookup x ((k, b) :: es) = List.lookup x es := by
  simp [List.lookup, h]

/-- Looking a key up in the zip of a duplicate-free key list with a value
list returns the value at the key's position. -/
theorem lookup_zip_get : ∀ (u v : List Int), u.Nodup →
    ∀ (i : Nat) (hi : i < u.length) (hi' : i < v.length),
    (u.zip v).lookup (u.get ⟨i, hi⟩) = some (v.get ⟨i, hi'⟩)
  | [], _, _, _, hi, _ => absurd hi (by simp)
  | _ :: _, [], _, _, _, hi' => absurd hi' (by simp)
  | a :: t, b :: w, hu, 0, hi, hi' => by simp [List.lookup]
  | a :: t, b :: w, hu, i + 1, hi, hi' => by
    have hit : i < t.length := by simpa using hi
    have hit' : i < w.length := by simpa using hi'
    have hmem : t.get ⟨i, hit⟩ ∈ t := t.get_mem i hit
    have hna : a ∉ t := (List.nodup_cons.mp hu).1
    have hne : (t.get ⟨i, hit⟩ == a) = false :=
      beq_eq_false_iff_ne.mpr (fun h => hna (h ▸ hmem))
    have htnd : t.Nodup := (List.nodup_cons.mp hu).2
    show List.lookup (t.get ⟨i, hit⟩) ((a, b) :: t.zip w) = some (w.get ⟨i, hit'⟩)
    rw [lookup_cons_of_ne hne]
    exact lookup_zip_get t w htnd i hit hit'

/-- The rank of the `i`-th sorted distinct value is `i`. -/
theorem class_rank_get (m : List (List Int)) (i : Fin (np_unique m).length) :
    class_rank m ((np_unique m).get i) = some (Int.ofNat i) := by
  have hlen : (i : Nat) <
      ((List.range (np_unique m).length).map Int.ofNat).length := by
    rw [List.length_map, List.length_range]; exact i.isLt
  have h := lookup_zip_get (np_unique m) _ (nodup_np_unique m) i i.isLt hlen
  rw [class_rank, value_dict]
  refine Eq.trans h ?_
  congr 1
  rw [List.get_eq_getElem, List.getElem_map, List.getElem_range]

/-- Every value present in the class map has a rank below the number of
distinct values, and realises its sorted position. -/
theorem class_rank_of_mem {m : List (List Int)} {x : Int}
    (hx : x ∈ m.flatten) :
    ∃ i : Fin (np_unique m).length,
      (np_unique m).get i = x ∧ class_rank m x = some (Int.ofNat i) := by
  obtain ⟨i, hi⟩ := List.mem_iff_get.mp (mem_np_unique.mpr hx)
  exact ⟨i, hi, hi ▸ class_rank_get m i⟩

end MincPlotting

/-! # Claim theorems -/

namespace MincPlotting

/-- C1: for every non-empty two-dimensional integer array with `k` distinct
values (`k = (np_unique m).length`), `modify_class_map` returns a
same-shaped array whose entries exactly cover the ranks `[0, k)` (as
`some`-values of the dictionary lookup), equal input codes map to equal
output ranks, distinct input codes map to distinct output ranks, and rank
order follows the ascending numeric order of the original codes. -/
theorem modify_class_map_bijective_remap (m : List (List Int))
    (hne : m.flatten ≠ []) :
    ((modify_class_map m).map List.length = m.map List.length) ∧
    (∀ row ∈ modify_class_map m, ∀ v ∈ row,
      ∃ j : Nat, j < (np_unique m).length ∧ v = some (Int.ofNat j)) ∧
    (∀ j : Nat, j < (np_unique m).length →
      ∃ row ∈ modify_class_map m, some (Int.ofNat j) ∈ row) ∧
    (∀ x ∈ m.flatten, ∀ y ∈ m.flatten,
      (class_rank m x = class_rank m y ↔ x = y)) ∧
    (∀ x ∈ m.flatten, ∀ y ∈ m.flatten, x < y →
      ∃ rx ry : Int, class_rank m x = some rx ∧ class_rank m y = some ry ∧
        rx < ry) := by
  refine ⟨?_, ?_, ?_, ?_, ?_⟩
  · rw [modify_class_map, List.map_map]
    exact List.map_congr_left (fun row _ => List.length_map row _)
  · intro row hrow v hv
    rw [modify_class_map, List.mem_map] at hrow
    obtain ⟨row₀, hrow₀, rfl⟩ := hrow
    rw [List.mem_map] at hv
    obtain ⟨x, hx, rfl⟩ := hv
    have hxf : x ∈ m.flatten := List.mem_flatten.mpr ⟨row₀, hrow₀, hx⟩
    obtain ⟨i, _, hrank⟩ := class_rank_of_mem hxf
    exact ⟨i, i.isLt, hrank⟩
  · intro j hj
    have hxf : (np_unique m).get ⟨j, hj⟩ ∈ m.flatten :=
      mem_np_unique.mp ((np_unique m).get_mem j hj)
    obtain ⟨row₀, hrow₀, hx⟩ := List.mem_flatten.mp hxf
    refine ⟨row₀.map (fun x => (value_dict (np_unique m)).lookup x),
      ?_, ?_⟩
    · rw [modify_class_map, List.mem_map]
      exact ⟨row₀, hrow₀, rfl⟩
    · rw [List.mem_map]
      exact ⟨_, hx, class_rank_get m ⟨j, hj⟩⟩
  · intro x hx y hy
    obtain ⟨i, hgi, hri⟩ := class_rank_of_mem hx
    obtain ⟨j, hgj, hrj⟩ := class_rank_of_mem hy
    constructor
    · intro h
      rw [hri, hrj] at h
      have hij : i = j := Fin.ext (Int.ofNat.inj (Option.some.inj h))
      rw [← hgi, ← hgj, hij]
    · intro h
      rw [h]
  · intro x hx y hy hxy
    obtain ⟨i, hgi, hri⟩ := class_rank_of_mem hx
    obtain ⟨j, hgj, hrj⟩ := class_rank_of_mem hy
    have hij : i < j := by
      rcases lt_trichotomy i j with h | h | h
      · exact h
      · exact absurd (hgi ▸ hgj ▸ h ▸ rfl : x = y) (ne_of_lt hxy)
      · exact absurd (hgj ▸ hgi ▸ np_unique_get_lt m j i h) (not_lt.mpr (le_of_lt hxy))
    exact ⟨Int.ofNat i, Int.ofNat j, hri, hrj, Int.ofNat_lt.mpr hij⟩

/-- When the values of the class map exactly cover `[0, k)`, the sorted
distinct values are `0, 1, ..., k-1`. -/
theorem np_unique_of_cover (m : List (List Int)) (k : Nat)
    (hcover : ∀ x : Int, x ∈ m.flatten ↔ 0 ≤ x ∧ x < (k : Int)) :
    np_unique m = (List.range k).map Int.ofNat := by
  have h1 : ∀ x : Int, x ∈ np_unique m ↔ x ∈ (List.range k).map Int.ofNat := by
    intro x
    rw [mem_np_unique, hcover x]
    simp only [List.mem_map, List.mem_range, Int.ofNat_eq_natCast]
    constructor
    · intro hx
      refine ⟨x.toNat, ?_, ?_⟩ <;> omega
    · rintro ⟨n, hn, rfl⟩
      omega
  have hnd2 : ((List.range k).map Int.ofNat).Nodup :=
    List.Nodup.map (fun a b => Int.ofNat.inj) (List.nodup_range k)
  have hsorted2 : ((List.range k).map Int.ofNat).Sorted (· ≤ ·) := by
    rw [List.Sorted, List.pairwise_map]
    exact (List.pairwise_lt_range k).imp
      (fun h => by simp only [Int.ofNat_eq_natCast]; omega)
  refine List.eq_of_perm_of_sorted ?_ (sorted_np_unique m) hsorted2
  exact List.perm_of_nodup_nodup_toFinset_eq (nodup_np_unique m) hnd2
    (Finset.ext (fun a => by simpa only [List.mem_toFinset] using h1 a))

/-- C5: remapping is idempotent.  For a non-empty 2-D array whose values
already exactly cover the dense range `[0, k)`, `modify_class_map` returns
the same array unchanged (each Python `int` entry `x` of the result being
the successful dictionary hit `some x`). -/
theorem modify_class_map_idempotent (m : List (List Int)) (k : Nat)
    (hne : m.flatten ≠ [])
    (hcover : ∀ x : Int, x ∈ m.flatten ↔ 0 ≤ x ∧ x < (k : Int)) :
    modify_class_map m = m.map (fun row => row.map some) := by
  have hu := np_unique_of_cover m k hcover
  have hnd : ((List.range k).map Int.ofNat).Nodup :=
    List.Nodup.map (fun a b => Int.ofNat.inj) (List.nodup_range k)
  rw [modify_class_map]
  refine List.map_congr_left (fun row hrow => ?_)
  refine List.map_congr_left (fun x hx => ?_)
  have hxf : x ∈ m.flatten := List.mem_flatten.mpr ⟨row, hrow, hx⟩
  have hxr : 0 ≤ x ∧ x < (k : Int) := (hcover x).mp hxf
  have hn : x.toNat < k := by omega
  have hlen : ((List.range k).map Int.ofNat).length = k := by simp
  have hn1 : x.toNat < ((List.range k).map Int.ofNat).length := by omega
  have hn2 : x.toNat <
      ((List.range ((List.range k).map Int.ofNat).length).map Int.ofNat).length := by
    simp only [List.length_map, List.length_range]
    omega
  have hget : ∀ hb, ((List.range k).map Int.ofNat).get ⟨x.toNat, hb⟩ = x := by
    intro hb
    rw [List.get_eq_getElem, List.getElem_map, List.getElem_range]
    exact Int.toNat_of_nonneg hxr.1
  have hget2 :
      ((List.range ((List.range k).map Int.ofNat).length).map Int.ofNat).get
        ⟨x.toNat, hn2⟩ = x := by
    rw [List.get_eq_getElem, List.getElem_map, List.getElem_range]
    exact Int.toNat_of_nonneg hxr.1
  have hlook := lookup_zip_get ((List.range k).map Int.ofNat)
    ((List.range ((List.range k).map Int.ofNat).length).map Int.ofNat)
    hnd x.toNat hn1 hn2
  show class_rank m x = some x
  rw [class_rank, hu]
  show (((List.range k).map Int.ofNat).zip
    ((List.range ((List.range k).map Int.ofNat).length).map Int.ofNat)).lookup x
      = some x
  rw [← hget hn1, hlook, hget2]
  exact (congrArg some (hget hn1)).symm

/-- Witness for C5: the already-dense array `[[1, 0], [0, 2]]` is returned
unchanged. -/
theorem modify_class_map_idempotent_witness :
    modify_class_map [[1, 0], [0, 2]] = [[some 1, some 0], [some 0, some 2]] :=
  modify_class_map_idempotent [[1, 0], [0, 2]] 3 (by decide)
    (fun x => by simp [List.flatten]; omega)

/-- C7 counterexample: `modify_class_map` does not signal an error on an
empty input array; it returns an empty array of the same shape (the
source's `np.unique`, dict comprehension and nested list comprehension all
accept emptiness). -/
theorem modify_class_map_empty_ok :
    modify_class_map ([] : List (List Int)) = [] ∧
    modify_class_map [[], []] = [[], []] := by decide

/-- C7 amended: `modify_class_map` succeeds on every two-dimensional
integer array, the empty one included: it always returns a same-shaped
array, and on every entry the `value_dict.get` lookup succeeds (no `None`
placeholder and no exception anywhere). -/
theorem modify_class_map_total (m : List (List Int)) :
    (modify_class_map m).map List.length = m.map List.length ∧
    ∀ row ∈ modify_class_map m, ∀ v ∈ row, v.isSome := by
  constructor
  · rw [modify_class_map, List.map_map]
    exact List.map_congr_left (fun row _ => List.length_map row _)
  · intro row hrow v hv
    rw [modify_class_map, List.mem_map] at hrow
    obtain ⟨row₀, hrow₀, rfl⟩ := hrow
    rw [List.mem_map] at hv
    obtain ⟨x, hx, rfl⟩ := hv
    obtain ⟨i, _, hrank⟩ :=
      class_rank_of_mem (List.mem_flatten.mpr ⟨row₀, hrow₀, hx⟩)
    rw [show (value_dict (np_unique m)).lookup x = class_rank m x from rfl,
      hrank]
    rfl

/-- C9: the end-to-end scenario on the 2×2 class map `[[0, 9], [9, 21]]`:
sorted distinct codes `[0, 9, 21]`, remapped array `[[0, 1], [1, 2]]`
(as successful dictionary hits), and tick labels
`["0: brick", "9: metal", "21: water"]`. -/
theorem end_to_end_2x2 :
    np_unique [[0, 9], [9, 21]] = [0, 9, 21] ∧
    modify_class_map [[0, 9], [9, 21]] = [[some 0, some 1], [some 1, some 2]] ∧
    get_tick_labels [0, 9, 21] = some ["0: brick", "9: metal", "21: water"] := by
  decide

/-- Witness for C1: on `[[0, 9], [9, 21]]`, the codes `0 < 9` receive
ranks in the same strict order. -/
theorem modify_class_map_bijective_remap_witness :
    ∃ rx ry : Int, class_rank [[0, 9], [9, 21]] 0 = some rx ∧
      class_rank [[0, 9], [9, 21]] 9 = some ry ∧ rx < ry :=
  (modify_class_map_bijective_remap [[0, 9], [9, 21]] (by decide)).2.2.2.2
    0 (by decide) 9 (by decide) (by decide)

end MincPlotting

namespace MincPlotting

/-- C2 counterexample: for a class map with `k = 4` distinct values the
tick locations computed by `plot_class_map` are the **five** positions
`[3/8, 9/8, 15/8, 21/8, 27/8]` (since `np.arange(3/8, 4, 3/4)` runs to the
exclusive stop `4`), not the four positions `(i + 0.5) * 3/4`, `i < 4`,
that the spec claims. -/
theorem plot_class_map_tick_locs_k4_counterexample :
    plot_class_map_tick_locs [[0, 1], [2, 3]] = [3/8, 9/8, 15/8, 21/8, 27/8] ∧
    plot_class_map_tick_locs [[0, 1], [2, 3]] ≠ spec_claimed_tick_locs 4 := by
  have h : np_unique [[0, 1], [2, 3]] = [0, 1, 2, 3] := by decide
  have h5 : plot_class_map_tick_locs [[0, 1], [2, 3]] =
      [3/8, 9/8, 15/8, 21/8, 27/8] := by
    simp only [plot_class_map_tick_locs, h]
    norm_num
    rw [np_arange_eq _ _ _ 5 (by norm_num [Int.ceil_eq_iff])]
    norm_num [List.range_succ]
  refine ⟨h5, ?_⟩
  rw [h5]
  intro hEq
  have hlen := congrArg List.length hEq
  simp [spec_claimed_tick_locs] at hlen

/-- C2 amended: with `k` the number of distinct values of the class map,
the computed tick locations are `[0.0]` when `k ≤ 1`; when `k > 1` every
computed position `i` equals `(i + 0.5) * (k-1)/k` — so the first `k`
positions are the ones the spec names — but the sequence is longer than
`k` (the `np.arange` stop bound `k` admits extra trailing positions). -/
theorem plot_class_map_tick_locs_spec (m : List (List Int)) :
    ((np_unique m).length ≤ 1 → plot_class_map_tick_locs m = [0]) ∧
    (1 < (np_unique m).length →
      (∀ i : Nat, i < (plot_class_map_tick_locs m).length →
        (plot_class_map_tick_locs m).get? i =
          some (((i : ℚ) + 1/2) * (((np_unique m).length : ℚ) - 1) /
            ((np_unique m).length : ℚ))) ∧
      (np_unique m).length < (plot_class_map_tick_locs m).length) := by
  constructor
  · intro h
    rw [plot_class_map_tick_locs, if_neg (by omega)]
  · intro hk
    have hlocs : plot_class_map_tick_locs m =
        np_arange ((((np_unique m).length : ℚ) - 1) / ((np_unique m).length : ℚ) / 2)
          ((np_unique m).length : ℚ)
          ((((np_unique m).length : ℚ) - 1) / ((np_unique m).length : ℚ)) := by
      rw [plot_class_map_tick_locs, if_pos (by omega)]
    have hkq : (1 : ℚ) < ((np_unique m).length : ℚ) := by exact_mod_cast hk
    have hs : 0 < (((np_unique m).length : ℚ) - 1) / ((np_unique m).length : ℚ) :=
      div_pos (by linarith) (by linarith)
    constructor
    · intro i hi
      rw [hlocs, np_arange] at hi ⊢
      rw [List.length_map, List.length_range] at hi
      rw [List.get?_map, List.get?_range hi]
      have : ((((np_unique m).length : ℚ) - 1) / ((np_unique m).length : ℚ) / 2)
          + (i : ℚ) * ((((np_unique m).length : ℚ) - 1) / ((np_unique m).length : ℚ))
          = ((i : ℚ) + 1/2) * (((np_unique m).length : ℚ) - 1) /
            ((np_unique m).length : ℚ) := by
        ring
      rw [Option.map_some', this]
    · rw [hlocs, np_arange, List.length_map, List.length_range]
      rw [Int.lt_toNat, Int.lt_ceil]
      push_cast
      rw [lt_div_iff hs]
      have hmul : (((np_unique m).length : ℚ)) *
          ((((np_unique m).length : ℚ) - 1) / ((np_unique m).length : ℚ)) =
          ((np_unique m).length : ℚ) - 1 := by
        field_simp
      rw [hmul]
      have hhalf : (((np_unique m).length : ℚ) - 1) /
          ((np_unique m).length : ℚ) < 2 := by
        rw [div_lt_iff (by linarith)]
        linarith
      linarith

/-- Witness for C2's amended theorem: on a class map with four distinct
values the computed tick list is longer than four entries. -/
theorem plot_class_map_tick_locs_spec_witness :
    4 < (plot_class_map_tick_locs [[0, 1], [2, 3]]).length :=
  ((plot_class_map_tick_locs_spec [[0, 1], [2, 3]]).2 (by decide)).2

end MincPlotting

namespace MincPlotting

/-- C3 (code evaluation at the failing input): when the whole sequence is
the single code `[9]`, `get_class_names` returns the bare string
`"metal"`, and `get_tick_labels`' `zip` then pairs `9` with the first
*character* of that string, producing the label `"9: m"`; the intended
label `"9: metal"` does appear as soon as the sequence has a second
element. -/
theorem get_tick_labels_singleton_bug :
    get_tick_labels [9] = some ["9: m"] ∧
    get_tick_labels [0, 9] = some ["0: brick", "9: metal"] := by decide

/-- A successful `List.lookup` means the key occurs among the stored
keys. -/
theorem lookup_some_mem_keys :
    ∀ (d : List (Int × String)) (c : Int) (v : String),
      d.lookup c = some v → c ∈ d.map Prod.fst
  | [], c, v, h => by simp [List.lookup] at h
  | (k, s) :: t, c, v, h => by
    cases hck : (c == k) with
    | true =>
      simp only [List.map_cons, List.mem_cons]
      exact Or.inl (beq_iff_eq.mp hck)
    | false =>
      rw [lookup_cons_of_ne hck] at h
      simp only [List.map_cons, List.mem_cons]
      exact Or.inr (lookup_some_mem_keys t c v h)

/-- The label loop fails (Python `TypeError`) as soon as some pair carries
the `None` placeholder name. -/
theorem build_tick_labels_none_of_mem :
    ∀ (l : List (Int × Option String)),
      (∃ n, (n, (none : Option String)) ∈ l) → build_tick_labels l = none
  | [], h => by simp at h
  | (num, name) :: rest, h => by
    cases name with
    | none => rfl
    | some nm =>
      have hrest : ∃ n, (n, (none : Option String)) ∈ rest := by
        obtain ⟨n, hn⟩ := h
        rcases List.mem_cons.mp hn with heq | hmem
        · simp at heq
        · exact ⟨n, hmem⟩
      show (build_tick_labels rest).map _ = none
      rw [build_tick_labels_none_of_mem rest hrest]
      rfl

/-- C6 corrected: for a class code outside the catalog range `0..22` the
dictionary lookup itself silently yields the `None` placeholder
(`get_class_names` does not fail), but `get_tick_labels` then *fails*
(Python `TypeError`, `none` here) on any sequence containing the unknown
code — the placeholder poisons the `str + None` concatenation (and, for a
singleton sequence, the `zip` over the `None` value). -/
theorem tick_labels_unknown_code (c : Int) (cs : List Int)
    (hc : c < 0 ∨ 22 < c) :
    CLASS_LIST.lookup c = none ∧
    get_class_names [c] = ClassNames.one none ∧
    (c ∈ cs → get_tick_labels cs = none) := by
  have h1 : CLASS_LIST.lookup c = none := by
    cases hl : CLASS_LIST.lookup c with
    | none => rfl
    | some v =>
      have hmem := lookup_some_mem_keys CLASS_LIST c v hl
      have hb : ∀ x ∈ CLASS_LIST.map Prod.fst, 0 ≤ x ∧ x ≤ 22 := by decide
      obtain ⟨hge, hle⟩ := hb c hmem
      omega
  refine ⟨h1, by simp [get_class_names, h1], ?_⟩
  intro hmem
  match cs, hmem with
  | [a], hmem =>
    have ha : a = c := (List.mem_singleton.mp hmem).symm
    subst ha
    simp [get_tick_labels, get_class_names, h1]
  | a :: b :: t, hmem =>
    have hform : get_tick_labels (a :: b :: t) =
        build_tick_labels ((a :: b :: t).zip
          ((a :: b :: t).map (fun n => CLASS_LIST.lookup n))) := rfl
    have hzip : (a :: b :: t).zip
        ((a :: b :: t).map (fun n => CLASS_LIST.lookup n)) =
        (a :: b :: t).map (fun x => (x, CLASS_LIST.lookup x)) := by
      simpa using List.zip_map' id (fun n => CLASS_LIST.lookup n) (a :: b :: t)
    rw [hform, hzip]
    exact build_tick_labels_none_of_mem _
      ⟨c, List.mem_map.mpr ⟨c, hmem, by rw [h1]⟩⟩

/-- Witness for C6's corrected statement at the unknown code 23. -/
theorem tick_labels_unknown_code_witness :
    get_tick_labels [23, 0] = none :=
  (tick_labels_unknown_code 23 [23, 0] (by omega)).2.2 (by decide)

/-- C6 counterexample to the claim as stated: the label pipeline does fail
for codes outside the catalog — `get_tick_labels [23, 24]` raises
(Python `TypeError`), rather than yielding labels with empty names. -/
theorem get_tick_labels_unknown_fails :
    get_tick_labels [23, 24] = none := by decide

/-- C4: for any 3-D probability array `P`, the dictionary form
`{'prob': [P]}` with a single batch entry and the pre-averaged array form
`P` produce the identical class map, namely the per-pixel arg-max over
the class axis. -/
theorem derive_class_map_dict_eq_arr (P : Prob3) :
    derive_class_map (NetworkOutput.dict [P]) = some (argmax_axis0 P) ∧
    derive_class_map (NetworkOutput.arr P) = some (argmax_axis0 P) :=
  ⟨rfl, rfl⟩

end MincPlotting

namespace NcsDemo

/-- C8: in the demo `__main__` block, an `--input` that is neither the
literal `"cam"` nor an existing file makes the program abort on the
assertion before the video capture is opened (the trace is just the
assertion failure); the literal `"cam"` opens the capture on camera
device `0`. -/
theorem demo_input_validation (isfile : String → Bool) (input : String) :
    (input ≠ "cam" → isfile input = false →
      run_demo_main isfile input = [DemoEvent.assertFailure]) ∧
    (input = "cam" →
      run_demo_main isfile input =
        [DemoEvent.openCapture (InputStream.camera 0), DemoEvent.startApp]) := by
  constructor
  · intro h1 h2
    simp [run_demo_main, resolve_input_stream, h1, h2]
  · intro h1
    simp [run_demo_main, resolve_input_stream, h1]

/-- Witness for C8: a missing file aborts; `"cam"` opens device 0. -/
theorem demo_input_validation_witness :
    run_demo_main (fun _ => false) "missing.avi" = [DemoEvent.assertFailure] ∧
    run_demo_main (fun _ => false) "cam" =
      [DemoEvent.openCapture (InputStream.camera 0), DemoEvent.startApp] :=
  ⟨(demo_input_validation (fun _ => false) "missing.avi").1 (by decide) rfl,
   (demo_input_validation (fun _ => false) "cam").2 rfl⟩

end NcsDemo

namespace MincPlotting

/-- C10: for every well-formed classification result, calling
`plot_output` with the `image` parameter left at its default `None` fails
with the `AttributeError` raised when the `image aspect:` log line reads
`image.shape` — and by then the output directory has already been created
and the log file opened and written three lines, so the filesystem is not
left unchanged on this error. -/
theorem plot_output_none_image (nw : NetworkOutput) (hw : WellFormedOutput nw)
    (path : Option String) (aspect : Option (Nat × Nat)) (cwd ts : String) :
    (plot_output nw none path aspect cwd ts).2 = some PyError.attributeError ∧
    ∃ p formLine,
      p = (match path with
        | none => cwd ++ "/plots/" ++ ts
        | some q => q ++ "/plots") ∧
      (plot_output nw none path aspect cwd ts).1 =
        [FSEvent.makedirs p, FSEvent.openLog (p ++ "/test_log.txt"),
         FSEvent.logWrite ("path: " ++ p ++ "\n"),
         FSEvent.logWrite formLine,
         FSEvent.logWrite ("plot aspect: " ++ py_str_pair (aspect.getD (30, 10))
           ++ "\n")] := by
  cases nw with
  | dict prob =>
    obtain ⟨P, rfl, hP⟩ := hw
    constructor
    · simp [plot_output, hP]
    · refine ⟨_, "network_output is dict\n", rfl, ?_⟩
      simp [plot_output, hP]
  | arr p =>
    have hp : ¬ p.length = 0 := by
      simpa [List.length_eq_zero] using hw
    constructor
    · simp [plot_output, hp]
    · refine ⟨_, "'network_output' is average prob maps\n", rfl, ?_⟩
      simp [plot_output, hp]

/-- Witness for C10: a concrete pre-averaged 1×1×1 probability array with
`image = None` aborts with the `AttributeError`. -/
theorem plot_output_none_image_witness :
    (plot_output (NetworkOutput.arr [[[1]]]) none none none "cwd" "ts").2 =
      some PyError.attributeError :=
  (plot_output_none_image (NetworkOutput.arr [[[1]]])
    (List.cons_ne_nil _ _) none none "cwd" "ts").1

end MincPlotting
